import Mathlib

/-!
Verification of the Deep Semantic Similarity Model (DSSM) reference script
(deep_semantic_similarity_keras.py).

The script builds a Keras computation graph: a query branch and a document
branch each map a variable-length sequence of WORD_DEPTH-wide hashed word
vectors to an L-wide semantic vector (Convolution1D with filter length 1 and
tanh activation, then an element-wise max over the time axis, then a Dense
layer with tanh); cosine similarities between the query vector and the
1 + J document vectors are rescaled by a learned 1x1 convolution (gamma),
exponentiated, and normalised to the probability of the positive document.

We embed the per-instance semantics of this graph shallowly: a word vector is
a `List ℝ`, a sequence is a `List (List ℝ)`, a layer's weights are explicit
lists of rows, and every Keras layer becomes a pure Lean function.  The batch
dimension of the final probability Lambda is modelled separately (see
`prob_layer`), since that Lambda indexes the batch axis explicitly.
-/

open Real

/-! ### Constants of the script -/

def LETTER_GRAM_SIZE : ℕ := 3

def N_GRAM_SIZE : ℕ := 3

/-- TOTAL_LETTER_GRAMS = int(3 * 1e4) in the script. -/
def TOTAL_LETTER_GRAMS : ℕ := 30000

/-- WORD_DEPTH = N_GRAM_SIZE * TOTAL_LETTER_GRAMS. -/
def WORD_DEPTH : ℕ := N_GRAM_SIZE * TOTAL_LETTER_GRAMS

/-- K = 300, dimensionality of the max pooling layer. -/
def K : ℕ := 300

/-- L = 128, dimensionality of the latent semantic space. -/
def L : ℕ := 128

/-- J = 4, number of negative (unclicked) documents per query. -/
def J : ℕ := 4

def FILTER_LENGTH : ℕ := 1

/-! ### The similarity scorer `R`

`R(vects)` computes `backend.dot(x, backend.transpose(y)) / (x.norm(2) * y.norm(2))`:
the dot product of the two vectors divided by the product of their Euclidean
(L2) norms. -/

/-- Dot product of two vectors, `backend.dot(x, backend.transpose(y))` for
row vectors `x`, `y`. -/
def dot (x y : List ℝ) : ℝ := (List.zipWith (· * ·) x y).sum

/-- Euclidean norm, `x.norm(2)`: the square root of the sum of squares. -/
noncomputable def norm2 (x : List ℝ) : ℝ := Real.sqrt ((x.map fun a => a * a).sum)

/-- The cosine-similarity Lambda `R` of the script. -/
noncomputable def R (x y : List ℝ) : ℝ := dot x y / (norm2 x * norm2 y)

/-! ### Spec-side similarity

The spec describes the scorer as "(dot product) / (product of Euclidean
norms)" of two vectors of equal width.  We state that spec-side quantity with
Mathlib's inner product and norm on `EuclideanSpace ℝ (Fin n)`. -/

/-- View a width-`n` tuple of reals as a point of Euclidean space. -/
def toEuc {n : ℕ} (f : Fin n → ℝ) : EuclideanSpace ℝ (Fin n) := f

/-- Spec-side cosine similarity: inner product over the product of Euclidean
norms. -/
noncomputable def specCos {n : ℕ} (f g : EuclideanSpace ℝ (Fin n)) : ℝ :=
  (@inner ℝ _ _ f g) / (‖f‖ * ‖g‖)

/-! ### Layer primitives

`Convolution1D(K, FILTER_LENGTH = 1, border_mode = "same", activation = "tanh")`
with a length-1 filter applies one affine map followed by tanh independently
at every time step (the weight-tying-across-time trick).  We represent its
parameters as a list `W` of kernel rows (row `k` is the length-WORD_DEPTH
vector dotted against a word vector to produce output feature `k`) plus a
bias list `b`; `Dense(L, activation = "tanh")` has the same shape of
parameters with `K`-wide rows. -/

/-- One affine map: output `k` is `dot (W k) v + b k`.  Output width is the
number of rows of `W` (and entries of `b`). -/
def affine (W : List (List ℝ)) (b : List ℝ) (v : List ℝ) : List ℝ :=
  List.zipWith (fun row bk => dot row v + bk) W b

/-- An affine map followed by the pointwise tanh activation: one time step of
the length-1-filter `Convolution1D`, and also the `Dense` layer. -/
noncomputable def denseT (W : List (List ℝ)) (b : List ℝ) (v : List ℝ) : List ℝ :=
  (affine W b v).map Real.tanh

/-- The length-1-filter `Convolution1D` layer: the same affine-plus-tanh map
applied at every time step of the sequence. -/
noncomputable def conv1 (W : List (List ℝ)) (b : List ℝ)
    (seq : List (List ℝ)) : List (List ℝ) :=
  seq.map (denseT W b)

/-- The max-pooling Lambda `lambda x: x.max(axis = 1)`: the element-wise
maximum over the time steps of the sequence. -/
def maxPool : List (List ℝ) → List ℝ
  | [] => []
  | h :: t => t.foldl (fun acc v => List.zipWith max acc v) h

/-- Parameters of one sequence-encoder branch: the `Convolution1D` kernel
rows `Wc` with bias `bc`, and the `Dense` rows `Ws` with bias `bs`. -/
structure EncoderParams where
  Wc : List (List ℝ)
  bc : List ℝ
  Ws : List (List ℝ)
  bs : List ℝ

/-- The sequence encoder of one branch: convolution, max pooling over time,
dense projection (each with tanh where the script has tanh). -/
noncomputable def encode (p : EncoderParams) (seq : List (List ℝ)) : List ℝ :=
  denseT p.Ws p.bs (maxPool (conv1 p.Wc p.bc seq))

/-- All weights of the model: one query branch, ONE document branch (its
single parameter set serves the positive and every negative document), and
the 1x1 gamma convolution's weight `gw` and bias `gb`. -/
structure ModelParams where
  qp : EncoderParams
  dp : EncoderParams
  gw : ℝ
  gb : ℝ

/-! ### The graph of the script, per layer -/

noncomputable def query_conv (m : ModelParams) (q : List (List ℝ)) : List (List ℝ) :=
  conv1 m.qp.Wc m.qp.bc q

noncomputable def query_max (m : ModelParams) (q : List (List ℝ)) : List ℝ :=
  maxPool (query_conv m q)

noncomputable def query_sem (m : ModelParams) (q : List (List ℝ)) : List ℝ :=
  denseT m.qp.Ws m.qp.bs (query_max m q)

/-- The single document-branch `Convolution1D` instance `doc_conv`, as the
function it applies to a document. -/
noncomputable def doc_conv (m : ModelParams) (d : List (List ℝ)) : List (List ℝ) :=
  conv1 m.dp.Wc m.dp.bc d

/-- The document-branch max-pooling Lambda `doc_max`. -/
def doc_max (s : List (List ℝ)) : List ℝ := maxPool s

/-- The single document-branch `Dense` instance `doc_sem`. -/
noncomputable def doc_sem (m : ModelParams) (v : List ℝ) : List ℝ :=
  denseT m.dp.Ws m.dp.bs v

noncomputable def pos_doc_conv (m : ModelParams) (pos : List (List ℝ)) : List (List ℝ) :=
  doc_conv m pos

noncomputable def neg_doc_convs (m : ModelParams) (negs : List (List (List ℝ))) :
    List (List (List ℝ)) :=
  negs.map (doc_conv m)

noncomputable def pos_doc_max (m : ModelParams) (pos : List (List ℝ)) : List ℝ :=
  doc_max (pos_doc_conv m pos)

noncomputable def neg_doc_maxes (m : ModelParams) (negs : List (List (List ℝ))) :
    List (List ℝ) :=
  (neg_doc_convs m negs).map doc_max

noncomputable def pos_doc_sem (m : ModelParams) (pos : List (List ℝ)) : List ℝ :=
  doc_sem m (pos_doc_max m pos)

noncomputable def neg_doc_sems (m : ModelParams) (negs : List (List (List ℝ))) :
    List (List ℝ) :=
  (neg_doc_maxes m negs).map (doc_sem m)

/-- `R_Q_D_p`: cosine similarity of the query and the positive document. -/
noncomputable def R_Q_D_p (m : ModelParams) (q pos : List (List ℝ)) : ℝ :=
  R (query_sem m q) (pos_doc_sem m pos)

/-- `R_Q_D_ns`: cosine similarities of the query and each negative document,
in the order the negatives are presented. -/
noncomputable def R_Q_D_ns (m : ModelParams) (q : List (List ℝ))
    (negs : List (List (List ℝ))) : List ℝ :=
  (neg_doc_sems m negs).map (fun ds => R (query_sem m q) ds)

/-- `concat_Rs`: the positive score followed by the negative scores. -/
noncomputable def concat_Rs (m : ModelParams) (q pos : List (List ℝ))
    (negs : List (List (List ℝ))) : List ℝ :=
  R_Q_D_p m q pos :: R_Q_D_ns m q negs

/-- `with_gamma`: the learned 1x1 linear convolution, one shared weight and
one shared bias applied identically to every score. -/
noncomputable def with_gamma (m : ModelParams) (q pos : List (List ℝ))
    (negs : List (List (List ℝ))) : List ℝ :=
  (concat_Rs m q pos negs).map (fun s => m.gw * s + m.gb)

/-- `exponentiated`: element-wise exponential of the rescaled scores. -/
noncomputable def exponentiated (m : ModelParams) (q pos : List (List ℝ))
    (negs : List (List (List ℝ))) : List ℝ :=
  (with_gamma m q pos negs).map Real.exp

/-- The final Lambda on one ranking instance: first exponentiated value over
the sum of all of them (the script's `x[0][0] / backend.sum(x[0])` with the
batch row `x[0]` being this instance). -/
noncomputable def prob (m : ModelParams) (q pos : List (List ℝ))
    (negs : List (List (List ℝ))) : ℝ :=
  (exponentiated m q pos negs).headI / (exponentiated m q pos negs).sum

/-- The final Lambda exactly as written over a batch `x`:
`x[0][0] / backend.sum(x[0])`, reading only batch row 0. -/
noncomputable def prob_layer (x : List (List ℝ)) : ℝ := x.headI.headI / x.headI.sum

/-! ### Spec-side softmax and the input validation of the framework -/

/-- Spec-side softmax over a vector of scores. -/
noncomputable def softmaxSpec (v : List ℝ) : List ℝ :=
  v.map (fun a => Real.exp a / (v.map Real.exp).sum)

/-- Modelled from the spec: the structural input validation that the external
framework performs against the declared placeholders before any forward
computation — the script declares `Input(shape = (None, WORD_DEPTH))` for the
query, the positive document and exactly `J` negative documents, so a fed
input is accepted only when it supplies exactly `J` negative sequences and
every word vector of every sequence has width `WORD_DEPTH`. -/
def validInput (q pos : List (List ℝ)) (negs : List (List (List ℝ))) : Bool :=
  (negs.length == J) &&
    ((q :: pos :: negs).all fun s => s.all fun v => v.length == WORD_DEPTH)

/-- Modelled from the spec: feeding one ranking instance to the compiled
model — the input is validated first and the forward pass runs only when the
validation succeeds. -/
noncomputable def feedModel (m : ModelParams) (q pos : List (List ℝ))
    (negs : List (List (List ℝ))) : Option ℝ :=
  if validInput q pos negs then some (prob m q pos negs) else none

lemma dot_nil : dot [] [] = 0 := rfl

lemma dot_cons (a b : ℝ) (x y : List ℝ) :
    dot (a :: x) (b :: y) = a * b + dot x y := by
  simp [dot]

lemma dot_ofFn : ∀ {n : ℕ} (f g : Fin n → ℝ),
    dot (List.ofFn f) (List.ofFn g) = ∑ i, f i * g i := by
  intro n
  induction n with
  | zero => intro f g; simp [dot]
  | succ n ih =>
      intro f g
      rw [List.ofFn_succ, List.ofFn_succ, dot_cons, ih, Fin.sum_univ_succ]

lemma sumSq_ofFn {n : ℕ} (f : Fin n → ℝ) :
    ((List.ofFn f).map fun a => a * a).sum = ∑ i, f i * f i := by
  rw [List.map_ofFn]
  exact List.sum_ofFn

lemma norm2_ofFn {n : ℕ} (f : Fin n → ℝ) :
    norm2 (List.ofFn f) = ‖toEuc f‖ := by
  rw [norm2, sumSq_ofFn, EuclideanSpace.norm_eq]
  congr 1
  refine Finset.sum_congr rfl fun i _ => ?_
  rw [Real.norm_eq_abs, sq_abs, pow_two]
  rfl

lemma inner_toEuc {n : ℕ} (f g : Fin n → ℝ) :
    (@inner ℝ _ _ (toEuc f) (toEuc g)) = ∑ i, f i * g i := by
  simp [toEuc, PiLp.inner_apply, RCLike.inner_apply, starRingEnd_apply,
    star_trivial, mul_comm]

/-- C3: the similarity scorer returns the dot product divided by the product
of the Euclidean norms.  `R` is the code's definition on lists; the right-hand
side is the spec's quantity expressed with Mathlib's inner product and
Euclidean norm. -/
theorem R_eq_specCos {n : ℕ} (f g : Fin n → ℝ) :
    R (List.ofFn f) (List.ofFn g) = specCos (toEuc f) (toEuc g) := by
  rw [R, specCos, dot_ofFn, norm2_ofFn, norm2_ofFn, inner_toEuc]

lemma toEuc_ne_zero {n : ℕ} {f : Fin n → ℝ} (hf : f ≠ 0) : toEuc f ≠ 0 := hf

/-- C4: for non-zero vectors of equal width the similarity scorer's result
lies in the closed interval from -1 to 1, and a non-zero vector scored
against itself yields exactly 1. -/
theorem R_bounds {n : ℕ} (f g : Fin n → ℝ) (hf : f ≠ 0) (hg : g ≠ 0) :
    (-1 ≤ R (List.ofFn f) (List.ofFn g) ∧ R (List.ofFn f) (List.ofFn g) ≤ 1) ∧
      R (List.ofFn f) (List.ofFn f) = 1 := by
  have hfE : toEuc f ≠ 0 := toEuc_ne_zero hf
  have hgE : toEuc g ≠ 0 := toEuc_ne_zero hg
  have hnf : (0 : ℝ) < ‖toEuc f‖ := norm_pos_iff.mpr hfE
  have hng : (0 : ℝ) < ‖toEuc g‖ := norm_pos_iff.mpr hgE
  have hpos : (0 : ℝ) < ‖toEuc f‖ * ‖toEuc g‖ := mul_pos hnf hng
  constructor
  · rw [R_eq_specCos, specCos]
    have hcs : |(@inner ℝ _ _ (toEuc f) (toEuc g))| ≤ ‖toEuc f‖ * ‖toEuc g‖ :=
      abs_real_inner_le_norm (toEuc f) (toEuc g)
    have habs : |(@inner ℝ _ _ (toEuc f) (toEuc g)) / (‖toEuc f‖ * ‖toEuc g‖)| ≤ 1 := by
      rw [abs_div, abs_of_pos hpos]
      exact div_le_one_of_le₀ hcs (le_of_lt hpos)
    exact abs_le.mp habs
  · rw [R_eq_specCos, specCos, real_inner_self_eq_norm_mul_norm]
    exact div_self (ne_of_gt (mul_pos hnf hnf))

/-- Witness for `R_bounds` at the concrete non-zero vectors (1, 0) and
(0, 1). -/
theorem R_bounds_witness :
    (![(1 : ℝ), 0] ≠ 0 ∧ ![(0 : ℝ), 1] ≠ 0) ∧
      ((-1 ≤ R (List.ofFn ![(1 : ℝ), 0]) (List.ofFn ![(0 : ℝ), 1]) ∧
          R (List.ofFn ![(1 : ℝ), 0]) (List.ofFn ![(0 : ℝ), 1]) ≤ 1) ∧
        R (List.ofFn ![(1 : ℝ), 0]) (List.ofFn ![(1 : ℝ), 0]) = 1) := by
  have h1 : ![(1 : ℝ), 0] ≠ 0 := by
    intro h
    have h0 := congrFun h 0
    norm_num at h0
  have h2 : ![(0 : ℝ), 1] ≠ 0 := by
    intro h
    have h0 := congrFun h 1
    norm_num at h0
  exact ⟨⟨h1, h2⟩, R_bounds ![(1 : ℝ), 0] ![(0 : ℝ), 1] h1 h2⟩

/-- C1: the reported output of the ranking head is the softmax of the
affinely rescaled similarity scores (one shared weight `gw` and one shared
bias `gb` applied to every element, then element-wise exponentiation,
then normalisation) evaluated at index 0, the known-positive slot. -/
theorem prob_eq_softmax (m : ModelParams) (q pos : List (List ℝ))
    (negs : List (List (List ℝ))) :
    prob m q pos negs = (softmaxSpec (with_gamma m q pos negs)).headI := by
  simp [prob, softmaxSpec, exponentiated, with_gamma, concat_Rs]

/-- C2: the document branch is one parameter instance — for every parameter
state (hence after any number of training steps) the convolution applied to
each negative document is exactly the function applied to the positive slot,
and likewise for the full conv-pool-projection composite. -/
theorem doc_branch_weight_tying (m : ModelParams) (negs : List (List (List ℝ))) :
    neg_doc_convs m negs = negs.map (fun d => pos_doc_conv m d) ∧
      neg_doc_sems m negs = negs.map (fun d => pos_doc_sem m d) := by
  constructor
  · rfl
  · simp [neg_doc_sems, neg_doc_maxes, neg_doc_convs, pos_doc_sem,
      pos_doc_max, pos_doc_conv, List.map_map, Function.comp]

/-- C5: the sequence encoder maps any sequence of length T ≥ 1 and width
WORD_DEPTH to a semantic vector of width exactly L, independent of T. -/
theorem encode_width (p : EncoderParams) (T : ℕ) (seq : List (List ℝ))
    (hWs : p.Ws.length = L) (hbs : p.bs.length = L)
    (_hT : seq.length = T) (_hT1 : 1 ≤ T)
    (_hw : ∀ v ∈ seq, v.length = WORD_DEPTH) :
    (encode p seq).length = L := by
  simp [encode, denseT, affine, hWs, hbs]

/-- Witness for `encode_width` at a length-1 sequence of one
WORD_DEPTH-wide zero vector and a well-formed parameter set. -/
theorem encode_width_witness :
    ((List.replicate 128 ([] : List ℝ)).length = L ∧
        (List.replicate 128 (0 : ℝ)).length = L ∧
        [List.replicate WORD_DEPTH (0 : ℝ)].length = 1 ∧ 1 ≤ 1 ∧
        (∀ v ∈ [List.replicate WORD_DEPTH (0 : ℝ)], v.length = WORD_DEPTH)) ∧
      (encode ⟨[[1]], [0], List.replicate 128 ([] : List ℝ),
          List.replicate 128 (0 : ℝ)⟩
        [List.replicate WORD_DEPTH (0 : ℝ)]).length = L := by
  refine ⟨⟨by simp [L], by simp [L], by simp, le_refl 1, by simp⟩, ?_⟩
  exact encode_width ⟨[[1]], [0], List.replicate 128 ([] : List ℝ),
      List.replicate 128 (0 : ℝ)⟩ 1 [List.replicate WORD_DEPTH (0 : ℝ)]
    (by simp [L]) (by simp [L]) (by simp) (le_refl 1) (by simp)

/-- C7: at sequence length 1 max-pooling over time is the identity on the
single time-step vector, and the encoder degrades to the two dense-tanh
stages applied in order, with no error. -/
theorem maxPool_single (p : EncoderParams) (v : List ℝ) :
    maxPool [v] = v ∧ encode p [v] = denseT p.Ws p.bs (denseT p.Wc p.bc v) := by
  constructor
  · rfl
  · rfl

/-- C6: presenting the J negatives in permuted order permutes the negative
similarity scores by exactly that permutation, leaves the positive score
(the head of `concat_Rs`) unchanged, and leaves the output probability
unchanged. -/
theorem negs_permutation (m : ModelParams) (q pos : List (List ℝ)) {n : ℕ}
    (f : Fin n → List (List ℝ)) (σ : Equiv.Perm (Fin n)) :
    (R_Q_D_ns m q (List.ofFn f) =
        List.ofFn (fun j => R (query_sem m q) (pos_doc_sem m (f j))) ∧
      R_Q_D_ns m q (List.ofFn (f ∘ σ)) =
        List.ofFn ((fun j => R (query_sem m q) (pos_doc_sem m (f j))) ∘ σ)) ∧
      (concat_Rs m q pos (List.ofFn (f ∘ σ))).headI =
        (concat_Rs m q pos (List.ofFn f)).headI ∧
      prob m q pos (List.ofFn (f ∘ σ)) = prob m q pos (List.ofFn f) := by
  have hns : ∀ g : Fin n → List (List ℝ),
      R_Q_D_ns m q (List.ofFn g) =
        List.ofFn (fun j => R (query_sem m q) (pos_doc_sem m (g j))) := by
    intro g
    simp only [R_Q_D_ns, neg_doc_sems, neg_doc_maxes, neg_doc_convs,
      List.map_ofFn, pos_doc_sem, pos_doc_max, pos_doc_conv]
    rfl
  refine ⟨⟨hns f, hns (f ∘ σ)⟩, rfl, ?_⟩
  simp only [prob, exponentiated, with_gamma, concat_Rs, hns, List.map_cons,
    List.map_ofFn, List.headI, List.sum_cons, List.sum_ofFn]
  congr 2
  exact Equiv.sum_comp σ
    (fun j => Real.exp (m.gw * R (query_sem m q) (pos_doc_sem m (f j)) + m.gb))

/-- C8: the scorer has no guard against zero-norm inputs — the zero vector
has `norm2` zero, so the scorer divides by zero there; with the real-number
division-by-zero convention the result degenerates to 0, so even the zero
vector scored against itself yields 0 rather than a cosine value. -/
theorem R_zero_norm :
    norm2 [(0 : ℝ), 0] = 0 ∧
      R [(3 : ℝ), 4] [(0 : ℝ), 0] = dot [(3 : ℝ), 4] [(0 : ℝ), 0] / 0 ∧
      R [(0 : ℝ), 0] [(0 : ℝ), 0] = 0 := by
  have h : norm2 [(0 : ℝ), 0] = 0 := by simp [norm2]
  refine ⟨h, ?_, ?_⟩
  · rw [R, h, mul_zero]
  · rw [R, h, mul_zero, div_zero]

/-- C9: an input that fails the structural validation (wrong number of
negative documents, or any word vector whose width is not WORD_DEPTH) is
rejected: the model feed returns no value and no forward computation
happens. -/
theorem invalid_input_rejected (m : ModelParams) (q pos : List (List ℝ))
    (negs : List (List (List ℝ))) (h : validInput q pos negs = false) :
    feedModel m q pos negs = none := by
  simp [feedModel, h]

/-- Witness for `invalid_input_rejected`: zero negative documents (J = 4
expected) with width-1 word vectors (WORD_DEPTH expected). -/
theorem invalid_input_rejected_witness :
    validInput [[(0 : ℝ)]] [[(0 : ℝ)]] [] = false ∧
      feedModel ⟨⟨[[1]], [0], [[1]], [0]⟩, ⟨[[1]], [0], [[1]], [0]⟩, 1, 0⟩
        [[(0 : ℝ)]] [[(0 : ℝ)]] [] = none := by
  have h : validInput [[(0 : ℝ)]] [[(0 : ℝ)]] [] = false := rfl
  exact ⟨h, invalid_input_rejected _ _ _ _ h⟩

/-- C10: the final Lambda indexes the batch axis at 0 — on any batch it
reads only the first ranking instance (any further instances are ignored),
and the per-instance `prob` is exactly the batch Lambda on a
single-instance batch. -/
theorem prob_layer_first_instance (inst : List ℝ) (rest rest' : List (List ℝ))
    (m : ModelParams) (q pos : List (List ℝ)) (negs : List (List (List ℝ))) :
    prob_layer (inst :: rest) = inst.headI / inst.sum ∧
      prob_layer (inst :: rest) = prob_layer (inst :: rest') ∧
      prob m q pos negs = prob_layer [exponentiated m q pos negs] := by
  exact ⟨rfl, rfl, rfl⟩
